import Mathlib

/-
Verification development for the CHIRPS rainfall extraction scripts.

The Python sources are shallowly embedded:
  * `read_arc` (convert_bin2nc.py): binary grid decoding with the
    whole-grid sentinel policy and the flip/rotate normalisation;
  * `extract_rfe` / `extract` (extract_rfe.py): label-sliced window
    selection, mean-ignoring-missing aggregation, rounding, date range;
  * `determine_files_to_convert` / `get_nc_filename` (convert_bin2nc.py):
    date-keyed set difference for the conversion cache;
  * `create_netCDF` (convert_bin2nc.py): coordinate axes, time values and
    the chmod mode of the written file;
  * `determine_files_to_extract` (extract_rfe.py): year-filtered file
    discovery whose date parameters are shadowed by the global config.

Grid cell values are modelled as rationals; a missing cell (NaN after
netCDF fill-value decoding) is `none`.  Filenames are lists of characters,
matching Python's fixed-offset slicing.
-/

namespace CHIRPS

/-! GridDecoder: `read_arc` in convert_bin2nc.py.  The binary file holds
`nx * ny` big-endian floats; they are reshaped column-major into an
`nx × ny` array, the whole grid is replaced by the sentinel if any cell is
negative, and the result is rotated 90 degrees and flipped vertically. -/

def nx : Nat := 751

def ny : Nat := 801

/-- `np.reshape(data, [nx, ny], order='F')`: cell `(a, b)` (with `a < nx`,
`b < ny`) is element `a + nx * b` of the flat buffer. -/
def reshapeF (data : Nat → ℚ) : Nat → Nat → ℚ := fun a b => data (a + nx * b)

/-- `any(n < 0 for n in array.flatten().tolist())` on the `nx × ny` array. -/
def hasNegative (A : Nat → Nat → ℚ) : Bool :=
  (List.range nx).any fun a => (List.range ny).any fun b => decide (A a b < 0)

/-- `if any(...): array[:, :] = -9999.0` — the whole-grid sentinel policy. -/
def maskNegative (A : Nat → Nat → ℚ) : Nat → Nat → ℚ :=
  if hasNegative A then fun _ _ => -9999 else A

/-- `np.rot90` (counterclockwise) of an `nx × ny` array; result is `ny × nx`. -/
def rot90 (A : Nat → Nat → ℚ) : Nat → Nat → ℚ := fun i j => A j (ny - 1 - i)

/-- `np.flipud` of a `ny × nx` array. -/
def flipud (B : Nat → Nat → ℚ) : Nat → Nat → ℚ := fun i j => B (ny - 1 - i) j

/-- `read_arc`: decode, sentinel-mask, then `np.flipud(np.rot90(array))`. -/
def read_arc (data : Nat → ℚ) : Nat → Nat → ℚ :=
  flipud (rot90 (maskNegative (reshapeF data)))

theorem hasNegative_iff (A : Nat → Nat → ℚ) :
    hasNegative A = true ↔ ∃ a < nx, ∃ b < ny, A a b < 0 := by
  simp [hasNegative, List.any_eq_true, List.mem_range]

/-- C1: if any decoded cell of the `751 × 801` buffer is negative, every
cell of the returned grid is the sentinel `-9999`; otherwise every cell is
preserved, merely relabelled by the column-major reshape followed by the
rotation and vertical flip (their composite sends returned cell `(i, j)`
to buffer element `j + nx * i`). -/
theorem read_arc_sentinel_policy (data : Nat → ℚ) :
    ((∃ a < nx, ∃ b < ny, data (a + nx * b) < 0) →
      ∀ i < ny, ∀ j < nx, read_arc data i j = -9999) ∧
    ((∀ a < nx, ∀ b < ny, 0 ≤ data (a + nx * b)) →
      ∀ i < ny, ∀ j < nx, read_arc data i j = data (j + nx * i)) := by
  constructor
  · intro hneg i hi j hj
    have h : hasNegative (reshapeF data) = true := by
      rw [hasNegative_iff]
      obtain ⟨a, ha, b, hb, hlt⟩ := hneg
      exact ⟨a, ha, b, hb, hlt⟩
    simp [read_arc, flipud, rot90, maskNegative, h]
  · intro hpos i hi j hj
    have h : hasNegative (reshapeF data) = false := by
      rw [Bool.eq_false_iff]
      intro hc
      obtain ⟨a, ha, b, hb, hlt⟩ := (hasNegative_iff _).1 hc
      exact absurd (hpos a ha b hb) (not_le.2 hlt)
    have hidx : ny - 1 - (ny - 1 - i) = i := by omega
    simp [read_arc, flipud, rot90, maskNegative, h, hidx, reshapeF]

/-- A flat buffer whose first cell is negative. -/
def negExample : Nat → ℚ := fun k => if k = 0 then -1 else 2

/-- A flat buffer with no negative cell. -/
def posExample : Nat → ℚ := fun _ => 2

theorem read_arc_sentinel_policy_witness :
    read_arc negExample 0 0 = -9999 ∧ read_arc posExample 3 5 = 2 := by
  constructor
  · exact (read_arc_sentinel_policy negExample).1
      ⟨0, by norm_num [nx], 0, by norm_num [ny], by norm_num [negExample]⟩
      0 (by norm_num [ny]) 0 (by norm_num [nx])
  · have h := (read_arc_sentinel_policy posExample).2
      (fun a _ b _ => by norm_num [posExample])
      3 (by norm_num [ny]) 5 (by norm_num [nx])
    simpa [posExample] using h

/-! RegionAggregator: the body of the loop in `extract_rfe`
(extract_rfe.py), `ds.sel(longitude=slice(W, E), latitude=slice(S, N))
.mean(dim=['longitude', 'latitude'])`, plus the `.round(1)` applied in
`extract`.  `sel` with a slice follows pandas label slicing: on an
ascending axis `slice(a, b)` keeps labels in `[a, b]`; on a descending
axis it keeps labels `l` with `a ≥ l ≥ b`.  The mean skips NaN cells
(`skipna` default), where NaN is any cell decoded from the fill value. -/

/-- One row of the coordinate table: columns `N`, `S`, `W`, `E`. -/
structure Region where
  N : ℚ
  S : ℚ
  W : ℚ
  E : ℚ

/-- Monotone-nondecreasing test for a coordinate axis. -/
def ascendingB : List ℚ → Bool
  | [] => true
  | [_] => true
  | a :: b :: rest => decide (a ≤ b) && ascendingB (b :: rest)

/-- Indices kept by pandas label slicing `slice(a, b)` on a monotone axis. -/
def sliceSel (axis : List ℚ) (a b : ℚ) : List Nat :=
  if ascendingB axis then
    (List.range axis.length).filter fun i =>
      decide (a ≤ axis.getD i 0) && decide (axis.getD i 0 ≤ b)
  else
    (List.range axis.length).filter fun i =>
      decide (axis.getD i 0 ≤ a) && decide (b ≤ axis.getD i 0)

/-- The cells of the window `ds.sel(longitude=slice(W, E),
latitude=slice(S, N))`, in axis order; `none` is a missing cell. -/
def selectCells (lats lons : List ℚ) (cell : Nat → Nat → Option ℚ)
    (r : Region) : List (Option ℚ) :=
  ((sliceSel lats r.S r.N).map fun i =>
    (sliceSel lons r.W r.E).map fun j => cell i j).flatten

/-- The non-missing cells of the window (what `skipna` keeps). -/
def validCells (lats lons : List ℚ) (cell : Nat → Nat → Option ℚ)
    (r : Region) : List ℚ :=
  (selectCells lats lons cell r).filterMap id

/-- `.mean(dim=['longitude', 'latitude'])` with `skipna`: mean of the
non-missing window cells, NaN (`none`) when there are none. -/
def extract_rfe (lats lons : List ℚ) (cell : Nat → Nat → Option ℚ)
    (r : Region) : Option ℚ :=
  if (validCells lats lons cell r).length = 0 then none
  else some ((validCells lats lons cell r).sum /
    ((validCells lats lons cell r).length : ℚ))

/-- Round an exact rational to the nearest integer, ties to even
(numpy/pandas rounding). -/
def roundHalfEven (q : ℚ) : ℤ :=
  if q - Int.floor q < 1 / 2 then Int.floor q
  else if 1 / 2 < q - Int.floor q then Int.floor q + 1
  else if Int.floor q % 2 = 0 then Int.floor q else Int.floor q + 1

/-- `.round(1)` from `extract`. -/
def round1 (q : ℚ) : ℚ := (roundHalfEven (q * 10) : ℚ) / 10

/-- Per-region value as it lands in the output table: the window mean
followed by `.round(1)`; still `none` (a missing marker) when NaN. -/
def extract_round1 (lats lons : List ℚ) (cell : Nat → Nat → Option ℚ)
    (r : Region) : Option ℚ :=
  (extract_rfe lats lons cell r).map round1

/-- Example axes for the spec's scenario: three latitudes inside `[9, 10]`
(9.2, 9.5 and 9.8 degrees). -/
def exLats : List ℚ := [mkRat 92 10, mkRat 95 10, mkRat 98 10]

/-- Example longitude axis: one longitude (30.5 degrees) inside `[30, 31]`. -/
def exLons : List ℚ := [mkRat 305 10]

/-- Example grid whose window cells are `[5.0, missing, 7.0]`. -/
def exCell : Nat → Nat → Option ℚ :=
  fun i _ => if i = 0 then some 5 else if i = 1 then none else some 7

/-- The spec's example region `{N: 10, S: 9, W: 30, E: 31}`. -/
def exRegion : Region := ⟨10, 9, 30, 31⟩

/-- C2: the aggregated value is the arithmetic mean of the selected
window's non-missing cells, rounded to one decimal place; on the spec's
example window `[5.0, missing, 7.0]` it is `6.0`. -/
theorem aggregator_mean_round1 (lats lons : List ℚ)
    (cell : Nat → Nat → Option ℚ) (r : Region) :
    (validCells lats lons cell r ≠ [] →
      extract_round1 lats lons cell r =
        some (round1 ((validCells lats lons cell r).sum /
          ((validCells lats lons cell r).length : ℚ)))) ∧
    extract_round1 exLats exLons exCell exRegion = some 6 := by
  constructor
  · intro hne
    have hlen : (validCells lats lons cell r).length ≠ 0 := by
      simpa [List.length_eq_zero] using hne
    simp [extract_round1, extract_rfe, hlen]
  · have h : validCells exLats exLons exCell exRegion = [5, 7] := by decide
    simp only [extract_round1, extract_rfe, h]
    norm_num [round1, roundHalfEven]

theorem aggregator_mean_round1_witness :
    extract_round1 exLats exLons exCell exRegion =
      some (round1 ((validCells exLats exLons exCell exRegion).sum /
        ((validCells exLats exLons exCell exRegion).length : ℚ))) :=
  (aggregator_mean_round1 exLats exLons exCell exRegion).1 (by decide)

/-- C3: if every selected cell is missing — which covers an empty window,
a region outside the grid, or bad `W > E` / `S > N` input — the aggregated
value is NaN (`none`); as a particular case, a region whose longitude
interval misses every longitude of the axis yields `none`; and a `none`
aggregate is propagated as a missing marker, never as the value `0`. -/
theorem aggregator_empty_window_missing (lats lons : List ℚ)
    (cell : Nat → Nat → Option ℚ) (r : Region) :
    ((∀ oc ∈ selectCells lats lons cell r, oc = none) →
      extract_rfe lats lons cell r = none) ∧
    (r.W ≤ r.E → (∀ l ∈ lons, l < r.W ∨ r.E < l) →
      extract_rfe lats lons cell r = none) ∧
    (extract_rfe lats lons cell r = none →
      extract_round1 lats lons cell r ≠ some 0) := by
  refine ⟨?_, ?_, ?_⟩
  · intro hall
    have hv : validCells lats lons cell r = [] := by
      rw [validCells, List.filterMap_eq_nil_iff]
      intro oc hoc
      simpa using hall oc hoc
    simp [extract_rfe, hv]
  · intro hWE hout
    have hslice : sliceSel lons r.W r.E = [] := by
      rw [sliceSel]
      split
      all_goals
        rw [List.filter_eq_nil_iff]
        intro i hi
        have hlen : i < lons.length := List.mem_range.1 hi
        have hmem : lons.getD i 0 ∈ lons := by
          rw [List.getD_eq_getElem _ _ hlen]
          exact List.getElem_mem hlen
        rcases hout _ hmem with hlt | hgt
        · simp only [Bool.and_eq_true, decide_eq_true_eq, not_and]
          intro h1 h2
          first
            | exact absurd h1 (not_le.2 hlt)
            | exact absurd (le_trans hWE h2) (not_le.2 hlt)
        · simp only [Bool.and_eq_true, decide_eq_true_eq, not_and]
          intro h1 h2
          first
            | exact absurd h2 (not_le.2 hgt)
            | exact absurd (le_trans h1 hWE) (not_le.2 hgt)
    have hsel : selectCells lats lons cell r = [] := by
      simp [selectCells, hslice]
    have hv : validCells lats lons cell r = [] := by
      simp [validCells, hsel]
    simp [extract_rfe, hv]
  · intro hnone
    simp [extract_round1, hnone]

theorem aggregator_empty_window_missing_witness :
    extract_rfe [1] [1] (fun _ _ => none) ⟨2, 0, 0, 2⟩ = none ∧
    extract_rfe [1] [5] (fun _ _ => some 3) ⟨2, 0, 0, 2⟩ = none ∧
    extract_round1 [1] [1] (fun _ _ => none) ⟨2, 0, 0, 2⟩ ≠ some 0 := by
  refine ⟨?_, ?_, ?_⟩
  · exact (aggregator_empty_window_missing [1] [1] (fun _ _ => none)
      ⟨2, 0, 0, 2⟩).1 (by decide)
  · exact (aggregator_empty_window_missing [1] [5] (fun _ _ => some 3)
      ⟨2, 0, 0, 2⟩).2.1 (by decide) (by decide)
  · exact (aggregator_empty_window_missing [1] [1] (fun _ _ => none)
      ⟨2, 0, 0, 2⟩).2.2 ((aggregator_empty_window_missing [1] [1]
        (fun _ _ => none) ⟨2, 0, 0, 2⟩).1 (by decide))

/-- C4 counterexample: the same latitude values (9.2, 9.5 and 9.8) stored
ascending versus descending do NOT select the same cells for the window
`latitude = slice(9, 10)`: the ascending axis selects all three, the
descending axis selects none, even though all three latitudes lie in
`[9, 10]`. -/
theorem slice_axis_order_counterexample :
    ((sliceSel [mkRat 92 10, mkRat 95 10, mkRat 98 10] 9 10).map
        (fun i => [mkRat 92 10, mkRat 95 10, mkRat 98 10].getD i 0) =
      [mkRat 92 10, mkRat 95 10, mkRat 98 10]) ∧
    ((sliceSel [mkRat 98 10, mkRat 95 10, mkRat 92 10] 9 10).map
        (fun i => [mkRat 98 10, mkRat 95 10, mkRat 92 10].getD i 0) =
      []) := by
  constructor
  · rfl
  · rfl

/-- C4 amended: the window selection follows the backing axis's own
ordering.  On an ascending axis, `slice(a, b)` selects exactly the indices
whose label lies in `[a, b]`; on a descending axis it selects exactly the
indices whose label lies in `[b, a]` — so for a descending latitude axis
the call `slice(S, N)` with `S < N` selects labels in the empty interval
`[N, S]`, and ascending versus descending storage select different
cells. -/
theorem slice_follows_axis_order (axis : List ℚ) (a b : ℚ) (i : Nat)
    (h : i < axis.length) :
    (ascendingB axis = true →
      (i ∈ sliceSel axis a b ↔ a ≤ axis.getD i 0 ∧ axis.getD i 0 ≤ b)) ∧
    (ascendingB axis = false →
      (i ∈ sliceSel axis a b ↔ axis.getD i 0 ≤ a ∧ b ≤ axis.getD i 0)) := by
  constructor
  · intro hasc
    simp [sliceSel, hasc, List.mem_filter, List.mem_range, h]
  · intro hdesc
    simp [sliceSel, hdesc, List.mem_filter, List.mem_range, h]

theorem slice_follows_axis_order_witness :
    0 ∈ sliceSel [1, 2] 1 2 ∧ 0 ∉ sliceSel [2, 1] 1 2 := by
  constructor
  · exact ((slice_follows_axis_order [1, 2] 1 2 0 (by decide)).1
      (by decide)).2 (by constructor <;> decide)
  · intro hmem
    have h := ((slice_follows_axis_order [2, 1] 1 2 0 (by decide)).2
      (by decide)).1 hmem
    exact absurd h.1 (by decide)

/-! TimeSeriesAssembler date range: `extract` (extract_rfe.py) builds its
expected column labels from `pd.date_range(start=config.startdate,
end=config.enddate, freq='D')`.  Dates are modelled as proleptic Gregorian
calendar dates; `toOrdinal` matches Python `datetime.date.toordinal`. -/

/-- A calendar date `YYYY-MM-DD`. -/
structure Date where
  year : Nat
  month : Nat
  day : Nat

def isLeap (y : Nat) : Bool := (y % 4 == 0 && y % 100 != 0) || y % 400 == 0

def daysInMonth (y m : Nat) : Nat :=
  if m = 2 then (if isLeap y then 29 else 28)
  else if m = 4 ∨ m = 6 ∨ m = 9 ∨ m = 11 then 30
  else 31

def daysBeforeMonth (y m : Nat) : Nat :=
  ((List.range (m - 1)).map fun k => daysInMonth y (k + 1)).sum

/-- Proleptic Gregorian ordinal of a date (day 1 is 0001-01-01). -/
def toOrdinal (d : Date) : Nat :=
  (d.year - 1) * 365 + (d.year - 1) / 4 - (d.year - 1) / 100 +
    (d.year - 1) / 400 + daysBeforeMonth d.year d.month + d.day

/-- `pd.date_range(start, end, freq='D')` as a list of day ordinals:
every day from `start` to `end`, both endpoints included. -/
def date_range (s e : Date) : List Nat :=
  if toOrdinal s ≤ toOrdinal e then
    (List.range (toOrdinal e - toOrdinal s + 1)).map fun k => toOrdinal s + k
  else []

/-- C5 counterexample: the date range `extract` computes for 2021-05-20 to
2021-05-22 has 3 entries, not 2, and it contains the end date 2021-05-22 —
`pd.date_range` includes the end date rather than excluding it. -/
theorem date_range_end_inclusive_counterexample :
    (date_range ⟨2021, 5, 20⟩ ⟨2021, 5, 22⟩).length = 3 ∧
    toOrdinal ⟨2021, 5, 22⟩ ∈ date_range ⟨2021, 5, 20⟩ ⟨2021, 5, 22⟩ ∧
    (date_range ⟨2021, 5, 20⟩ ⟨2021, 5, 22⟩).length ≠ 2 := by
  refine ⟨by decide, by decide, by decide⟩

/-- C5 amended: the requested date range includes BOTH the start date and
the end date: it is exactly the days `d` with `start ≤ d ≤ end`, so an
`N + 1`-day inclusive range yields `N + 1` output date columns — in
particular 2021-05-20 to 2021-05-22 yields 3 columns. -/
theorem date_range_inclusive_both_ends (s e : Date)
    (h : toOrdinal s ≤ toOrdinal e) :
    (date_range s e).length = toOrdinal e - toOrdinal s + 1 ∧
    toOrdinal s ∈ date_range s e ∧
    toOrdinal e ∈ date_range s e ∧
    (∀ t, t ∈ date_range s e ↔ toOrdinal s ≤ t ∧ t ≤ toOrdinal e) := by
  have hmem : ∀ t, t ∈ date_range s e ↔ toOrdinal s ≤ t ∧ t ≤ toOrdinal e := by
    intro t
    simp only [date_range, if_pos h, List.mem_map, List.mem_range]
    constructor
    · rintro ⟨k, hk, rfl⟩
      omega
    · rintro ⟨h1, h2⟩
      exact ⟨t - toOrdinal s, by omega, by omega⟩
  refine ⟨?_, ?_, ?_, hmem⟩
  · simp [date_range, if_pos h]
  · exact (hmem _).2 ⟨le_refl _, h⟩
  · exact (hmem _).2 ⟨h, le_refl _⟩

theorem date_range_inclusive_both_ends_witness :
    (date_range ⟨2021, 5, 20⟩ ⟨2021, 5, 22⟩).length =
      toOrdinal ⟨2021, 5, 22⟩ - toOrdinal ⟨2021, 5, 20⟩ + 1 ∧
    toOrdinal ⟨2021, 5, 20⟩ ∈ date_range ⟨2021, 5, 20⟩ ⟨2021, 5, 22⟩ :=
  ⟨(date_range_inclusive_both_ends ⟨2021, 5, 20⟩ ⟨2021, 5, 22⟩ (by decide)).1,
   (date_range_inclusive_both_ends ⟨2021, 5, 20⟩ ⟨2021, 5, 22⟩ (by decide)).2.1⟩

/-! Failure semantics of the extraction loop in `extract` (extract_rfe.py):
`for rfefile in filelist: dfrfe = extract_rfe(rfefile, df); rfe.append(dfrfe)`.
Each file either decodes to a column of per-region values or raises
(`xr.open_dataset` on an unreadable or malformed file); the loop has no
exception handling, so a raise propagates out of `extract`. -/

/-- The only failure the decoder can signal here. -/
inductive RunError where
  | decodeError
deriving DecidableEq

/-- The per-file loop of `extract`: collect each file's column of
per-region values; an exception at any file propagates immediately and the
remaining files are not processed. -/
def extractRun :
    List (Except RunError (List (Option ℚ))) →
      Except RunError (List (List (Option ℚ)))
  | [] => .ok []
  | f :: fs =>
    match f with
    | .error e => .error e
    | .ok col =>
      match extractRun fs with
      | .error e => .error e
      | .ok cols => .ok (col :: cols)

/-- C6 counterexample: a file list with one malformed file among two valid
ones does NOT complete — the run aborts with the decode error instead of
skipping the bad file. -/
theorem bad_file_aborts_run_counterexample :
    extractRun [.ok [some 1], .error .decodeError, .ok [some 2]] =
      .error .decodeError := by
  rfl

/-- C6 amended: the extraction loop has no per-file error handling: if any
file in the list fails to decode, the whole run aborts with that error; a
run completes only when every file decodes, and then it returns every
file's column, in order and unchanged. -/
theorem run_aborts_on_decode_error
    (files : List (Except RunError (List (Option ℚ)))) :
    ((∃ f ∈ files, ∃ e, f = .error e) → ∃ e, extractRun files = .error e) ∧
    ((∀ f ∈ files, ∃ col, f = .ok col) →
      ∃ cols, extractRun files = .ok cols ∧ files = cols.map .ok) := by
  induction files with
  | nil =>
    refine ⟨?_, ?_⟩
    · rintro ⟨f, hf, -⟩
      exact absurd hf (List.not_mem_nil f)
    · intro
      exact ⟨[], rfl, rfl⟩
  | cons f fs ih =>
    refine ⟨?_, ?_⟩
    · rintro ⟨g, hg, e, rfl⟩
      rcases List.mem_cons.1 hg with hhead | htail
      · exact ⟨e, by simp [extractRun, ← hhead]⟩
      · match hf : f with
        | .error e' => exact ⟨e', by simp [extractRun]⟩
        | .ok col =>
          obtain ⟨e'', he''⟩ := ih.1 ⟨_, htail, e, rfl⟩
          exact ⟨e'', by simp [extractRun, he'']⟩
    · intro hall
      obtain ⟨col, hcol⟩ := hall f (List.mem_cons_self f fs)
      obtain ⟨cols, hrun, hmap⟩ :=
        ih.2 fun g hg => hall g (List.mem_cons_of_mem f hg)
      exact ⟨col :: cols, by simp [hcol, extractRun, hrun], by
        simp [hcol, hmap]⟩

theorem run_aborts_on_decode_error_witness :
    (∃ e, extractRun [.ok [some 1], .error .decodeError] =
      Except.error e) ∧
    (∃ cols, extractRun [.ok [some 1], .ok [none]] = Except.ok cols ∧
      ([.ok [some 1], .ok [none]] :
        List (Except RunError (List (Option ℚ)))) = cols.map .ok) := by
  constructor
  · exact (run_aborts_on_decode_error [.ok [some 1], .error .decodeError]).1
      ⟨.error .decodeError, by simp, .decodeError, rfl⟩
  · exact (run_aborts_on_decode_error [.ok [some 1], .ok [none]]).2
      (by
        intro f hf
        rcases List.mem_cons.1 hf with rfl | hf2
        · exact ⟨[some 1], rfl⟩
        · rcases List.mem_cons.1 hf2 with rfl | hf3
          · exact ⟨[none], rfl⟩
          · exact absurd hf3 (List.not_mem_nil f))

/-! C9: the region table.  `extract_rfe` copies the input table
(`dfc = df.copy()`) and only reads the copy; `extract` passes the same
table to every file and never writes to it.  The loop is embedded with the
table threaded explicitly as state, so that "never mutated" is the claim
that the post-state equals the pre-state. -/

/-- The dataframe read from the `N, S, W, E` coordinate file. -/
structure RegionTable where
  rows : List Region

/-- One call `extract_rfe(rfefile, df)`: the returned pair is the region
table as it stands after the call, plus the per-region values (the code
copies `df` into `dfc`, iterates the copy and writes only `df_out`). -/
def extract_rfe_call (df : RegionTable) (lats lons : List ℚ)
    (cell : Nat → Nat → Option ℚ) : RegionTable × List (Option ℚ) :=
  let dfc := df
  (df, dfc.rows.map fun r => extract_rfe lats lons cell r)

/-- One decoded grid file: its axes and cells. -/
structure GridFile where
  lats : List ℚ
  lons : List ℚ
  cell : Nat → Nat → Option ℚ

/-- The loop of `extract`, threading the region table through the calls. -/
def extractLoop (df : RegionTable) :
    List GridFile → RegionTable × List (List (Option ℚ))
  | [] => (df, [])
  | g :: gs =>
    let step := extract_rfe_call df g.lats g.lons g.cell
    let rest := extractLoop step.1 gs
    (rest.1, step.2 :: rest.2)

/-- C9: the region table is never mutated: after the whole extraction loop
the table equals the input table, and every produced column was computed
from the original rows. -/
theorem region_table_never_mutated (df : RegionTable)
    (files : List GridFile) :
    (extractLoop df files).1 = df ∧
    (extractLoop df files).2 = files.map fun g =>
      df.rows.map fun r => extract_rfe g.lats g.lons g.cell r := by
  induction files with
  | nil => exact ⟨rfl, rfl⟩
  | cons g gs ih =>
    refine ⟨?_, ?_⟩
    · simpa [extractLoop, extract_rfe_call] using ih.1
    · simpa [extractLoop, extract_rfe_call] using ih.2

/-! Conversion cache: `determine_files_to_convert` and `get_nc_filename`
(convert_bin2nc.py).  Filenames are lists of characters; the code slices
`basename[15:23]` out of `daily_clim.bin.YYYYMMDD[.gz]` names and
`basename[7:15]` out of `arc2.0_YYYYMMDD_0.10.nc` names. -/

/-- Python slice `f[a:b]`. -/
def sliceStr (f : List Char) (a b : Nat) : List Char := (f.drop a).take (b - a)

/-- `os.path.basename(x)[15:23]`: date key of a binary source file. -/
def binDate (f : List Char) : List Char := sliceStr f 15 23

/-- `os.path.basename(x)[7:15]`: date key of a converted netCDF file. -/
def ncDate (f : List Char) : List Char := sliceStr f 7 15

/-- `determine_files_to_convert`: keep the binary files whose date key is
in `set(bin_dates) - set(nc_dates)` (the set is modelled by the equivalent
membership test, which is all the set is used for). -/
def determine_files_to_convert (bin_filelist nc_filelist : List (List Char)) :
    List (List Char) :=
  let bin_dates := bin_filelist.map binDate
  let nc_dates := nc_filelist.map ncDate
  let convert_dates := bin_dates.filter fun d => decide (d ∉ nc_dates)
  bin_filelist.filter fun x => decide (binDate x ∈ convert_dates)

/-- The basename built by `get_nc_filename`:
`'arc2.0_' + date + '_0.10.nc'` with `date = bin_fname[15:23]`. -/
def get_nc_basename (f : List Char) : List Char :=
  "arc2.0_".toList ++ binDate f ++ "_0.10.nc".toList

/-- C7: the conversion step selects exactly the binary files whose
filename-embedded date (characters 15..23) has no converted netCDF file
with the same date key; the netCDF name created for a binary file carries
the same date key (for names of the globbed shape, length at least 23), so
a second run over the same binary files selects nothing. -/
theorem convert_files_date_keyed (bins ncs : List (List Char)) :
    (∀ f, f ∈ determine_files_to_convert bins ncs ↔
      f ∈ bins ∧ binDate f ∉ ncs.map ncDate) ∧
    ((∀ f ∈ bins, binDate f ∈ ncs.map ncDate) →
      determine_files_to_convert bins ncs = []) ∧
    (∀ f, 23 ≤ f.length → ncDate (get_nc_basename f) = binDate f) := by
  refine ⟨?_, ?_, ?_⟩
  · intro f
    simp only [determine_files_to_convert, List.mem_filter, decide_eq_true_eq]
    constructor
    · rintro ⟨hf, -, hd⟩
      exact ⟨hf, hd⟩
    · rintro ⟨hf, hd⟩
      exact ⟨hf, List.mem_map_of_mem binDate hf, hd⟩
  · intro hall
    simp only [determine_files_to_convert]
    rw [List.filter_eq_nil_iff]
    intro f hf
    simp only [List.mem_filter, decide_eq_true_eq]
    intro hcon
    exact hcon.2 (hall f hf)
  · intro f hlen
    have h8 : (binDate f).length = 8 := by
      simp only [binDate, sliceStr, List.length_take, List.length_drop]
      omega
    have hpre : ("arc2.0_".toList).length = 7 := by decide
    calc ncDate (get_nc_basename f)
        = (("arc2.0_".toList ++
            (binDate f ++ "_0.10.nc".toList)).drop 7).take 8 := by
          simp [ncDate, sliceStr, get_nc_basename]
      _ = (binDate f ++ "_0.10.nc".toList).take 8 := by
          rw [← hpre, List.drop_left]
      _ = binDate f := by rw [← h8, List.take_left]

theorem convert_files_date_keyed_witness :
    determine_files_to_convert ["daily_clim.bin.20210520".toList]
      ["arc2.0_20210520_0.10.nc".toList] = [] ∧
    ncDate (get_nc_basename "daily_clim.bin.20210520".toList) =
      binDate "daily_clim.bin.20210520".toList ∧
    ("daily_clim.bin.20210520".toList ∈
      determine_files_to_convert ["daily_clim.bin.20210520".toList] [] ↔
      "daily_clim.bin.20210520".toList ∈
        (["daily_clim.bin.20210520".toList] : List (List Char)) ∧
      binDate "daily_clim.bin.20210520".toList ∉
        (([] : List (List Char)).map ncDate)) := by
  refine ⟨?_, ?_, ?_⟩
  · exact (convert_files_date_keyed ["daily_clim.bin.20210520".toList]
      ["arc2.0_20210520_0.10.nc".toList]).2.1 (by decide)
  · exact (convert_files_date_keyed [] []).2.2
      "daily_clim.bin.20210520".toList (by decide)
  · exact (convert_files_date_keyed ["daily_clim.bin.20210520".toList]
      []).1 "daily_clim.bin.20210520".toList

/-! GridEncoder: the pure content of `create_netCDF` (convert_bin2nc.py):
the coordinate axes `np.linspace(-20, 55, 751)` and
`np.linspace(-40, 40, 801)`, the time values, the fill value, and the
`os.chmod(filename, 484)` applied to the written file. -/

/-- `np.linspace a b n`: `n` evenly spaced values from `a` to `b`. -/
def linspace (a b : ℚ) (n : Nat) : List ℚ :=
  (List.range n).map fun i => a + (b - a) * i / ((n : ℚ) - 1)

/-- What `create_netCDF` writes, as data: time axis values, coordinate
axes, the fill value, and the mode passed to `os.chmod`. -/
structure NetCDFResult where
  timeval : List Int
  lon : List ℚ
  lat : List ℚ
  fillValue : ℚ
  chmodMode : Nat

/-- `create_netCDF(rfe_arr, end_date, start_date, filename)`: `is2D` is
whether `rfe_arr` has 2 dimensions; the dates are passed as ordinals.  The
written file is chmodded with the literal `484` from the source. -/
def create_netCDF (is2D : Bool) (start_ord end_ord : Nat) : NetCDFResult :=
  let days : Int := (end_ord : Int) - (start_ord : Int)
  { timeval := if is2D then [days]
      else (List.range (days.toNat + 1)).map fun i => (i : Int)
    lon := linspace (-20) 55 751
    lat := linspace (-40) 40 801
    fillValue := -9999
    chmodMode := 484 }

/-- C8 counterexample: the mode `create_netCDF` passes to `os.chmod` is
the decimal literal `484`, which is octal `0744`, not `0644`. -/
theorem chmod_mode_not_0644_counterexample :
    (create_netCDF true 738315 738315).chmodMode ≠ 0o644 := by
  decide

/-- C8 amended: every file written by `create_netCDF` has its permissions
set to mode `0744` (owner read/write/execute, group and others read) —
the source's `os.chmod(filename, 484)` with `484 = 0o744`. -/
theorem chmod_mode_is_0744 (is2D : Bool) (s e : Nat) :
    (create_netCDF is2D s e).chmodMode = 0o744 := rfl

/-! `determine_files_to_extract` (extract_rfe.py): the `startdate` and
`enddate` parameters are immediately shadowed by `config.startdate` and
`config.enddate`, so only the global config and the walked directory
contents determine the result. -/

/-- The global config: the two date strings (format `YYYY-MM-DD`). -/
structure Config where
  startdate : List Char
  enddate : List Char

/-- `int(...)` on a digit string. -/
def parseNat (cs : List Char) : Nat :=
  cs.foldl (fun a c => a * 10 + (c.toNat - 48)) 0

/-- `dt.strptime(s, "%Y-%m-%d").year`. -/
def year_of (datestr : List Char) : Nat := parseNat (datestr.take 4)

/-- `int(os.path.basename(f)[12:16])`: the year embedded in a per-year
CHIRPS filename `chirps-v2.0.YYYY.days_p05.nc`. -/
def fileYear (f : List Char) : Nat := parseNat (sliceStr f 12 16)

/-- Lexicographic byte order on filenames, for `filelist.sort()`. -/
def strLe : List Char → List Char → Bool
  | [], _ => true
  | _ :: _, [] => false
  | a :: as, b :: bs =>
    if a.toNat < b.toNat then true
    else if b.toNat < a.toNat then false
    else strLe as bs

def insertSorted (x : List Char) :
    List (List Char) → List (List Char)
  | [] => [x]
  | y :: ys => if strLe x y then x :: y :: ys else y :: insertSorted x ys

/-- `filelist.sort()`. -/
def sortFiles (xs : List (List Char)) : List (List Char) :=
  xs.foldr insertSorted []

/-- The filename the directory walk skips. -/
def dsStore : List Char := ".DS_Store".toList

/-- `determine_files_to_extract(startdate, enddate)`: `walked` is the list
of filenames produced by `os.walk`.  The date parameters are shadowed on
the first two lines of the body by the config values, so the year filter
`int(f[12:16]) in np.arange(start.year, end.year + 1)` uses only the
config. -/
def determine_files_to_extract (cfg : Config) (walked : List (List Char))
    (startdate enddate : List Char) : List (List Char) :=
  let startyear := year_of cfg.startdate
  let endyear := year_of cfg.enddate
  sortFiles (walked.filter fun f =>
    decide (f ≠ dsStore) && decide (startyear ≤ fileYear f) &&
      decide (fileYear f ≤ endyear))

/-- C10: `determine_files_to_extract` ignores its `startdate` and
`enddate` parameters: any two argument pairs give the identical file list,
a function of the config and the walked directory contents only. -/
theorem extract_file_list_ignores_params (cfg : Config)
    (walked : List (List Char)) (s1 e1 s2 e2 : List Char) :
    determine_files_to_extract cfg walked s1 e1 =
      determine_files_to_extract cfg walked s2 e2 := rfl

end CHIRPS
